import Mathlib

/-!
Shallow embedding of the Tinkoff/stream-client library (C++) in Lean 4,
covering the deadline-bounded socket layers, the TLS wrapper, the HTTP
receive loop, the connection pool, the refill strategies and the logging
gate.  Each definition mirrors one function of the C++ source; theorems at
the end of the file settle the specification claims against these
definitions.
-/

namespace StreamClient

/-- Error codes used by the embedded functions.  Each constructor stands for
one `boost::system` / `boost::asio` / `boost::beast` error code that the
modelled source functions branch on; `other n` stands for any further error
code (indexed by an arbitrary number). -/
inductive Err : Type
  | ok
  | notConnected
  | timedOut
  | notFound
  | eof
  | needMore
  | endOfStream
  | bufferOverflow
  | incompleteMessage
  | other (n : Nat)
  deriving DecidableEq, Repr

/-- `bool(ec)` in C++: an error code is truthy iff it is not success. -/
def Err.isErr (e : Err) : Bool := e ≠ Err.ok

/-- State of a plain TCP socket handle: whether the OS handle is open. -/
structure TcpSocket : Type where
  isOpen : Bool
  deriving DecidableEq, Repr

/-- Embedding of `stream_client::stream_socket<Protocol>::close()`
(`stream/impl/stream_socket.ipp`):

    boost::system::error_code ec;
    this->next_layer().shutdown(shutdown_both, ec);
    if (ec != boost::system::errc::not_connected) {
        return ec;
    }
    this->next_layer().close(ec);
    return ec;

The outcomes of the two underlying OS calls are supplied as oracle
parameters `shutdownEc` and `closeEc`.  The second component of the result
is the socket handle state after the call (the handle is released exactly
when `next_layer().close(ec)` runs). -/
def streamSocketClose (shutdownEc closeEc : Err) (s : TcpSocket) : Err × TcpSocket :=
  let ec := shutdownEc
  if ec ≠ Err.notConnected then
    (ec, s)
  else
    (closeEc, { s with isOpen := false })

/-- Log levels of the source enum `stream_client::log_level`
(`logger.hpp`): `mute = -1, trace = 0, debug, info, warning, error`. -/
inductive LogLevel : Type
  | mute
  | trace
  | debug
  | info
  | warning
  | error
  deriving DecidableEq, Repr

/-- The underlying integer value of each `log_level` enumerator, as fixed
by the C++ enum declaration. -/
def LogLevel.toInt : LogLevel → Int
  | .mute => -1
  | .trace => 0
  | .debug => 1
  | .info => 2
  | .warning => 3
  | .error => 4

/-- Embedding of the `STREAM_LOG_CALL(level, ...)` macro (`logger.hpp`):

    const auto logger = stream_client::detail::logger_instance();
    if (logger && logger->get_level() <= level) {
        logger->message(level, ..., ...);
    }

`loggerSet` says whether a logger instance is installed, `gate` is the
installed logger's level and `msg` the message level; the result is whether
`message` is invoked. -/
def streamLogCall (loggerSet : Bool) (gate msg : LogLevel) : Bool :=
  loggerSet && decide (gate.toInt ≤ msg.toInt)

/-- Category of a `boost::system::error_code`, as compared by
`ec.category() == boost::asio::error::get_ssl_category()` in
`ssl::stream_socket::close`. -/
inductive ErrCategory : Type
  | system
  | asio
  | ssl
  | beast
  | misc (n : Nat)
  deriving DecidableEq, Repr

/-- A `boost::system::error_code`: a category together with a numeric
value; value `0` is success. -/
structure ErrorCode : Type where
  cat : ErrCategory
  val : Int
  deriving DecidableEq, Repr

/-- `bool(ec)` in C++ for a category/value error code. -/
def ErrorCode.isErr (e : ErrorCode) : Bool := e.val ≠ 0

/-- The numeric value of `boost::asio::ssl::error::stream_truncated`
(historically `SSL_R_SHORT_READ`) inside the ssl category. -/
def streamTruncated : Int := 1

/-- Embedding of `stream_client::ssl::stream_socket<Socket>::close()`
(`stream/impl/ssl_stream_socket.ipp`):

    boost::system::error_code ec;
    ssl_layer().shutdown(ec);
    bool ssl_short_read_err = (ec.value() == stream_truncated);
    if (ec.category() == ssl_category && ssl_short_read_err) {
        ec.assign(0, ec.category());
    }
    if (ec) { return ec; }
    lowest_layer().close(ec);
    return ec;

`shutdownEc`/`closeEc` are the outcomes of the underlying calls; the
second result component is the lowest-layer handle state afterwards
(the handle is released exactly when `lowest_layer().close` runs). -/
def sslClose (shutdownEc closeEc : ErrorCode) (handleOpen : Bool) : ErrorCode × Bool :=
  let ec := shutdownEc
  let sslShortReadErr : Bool := ec.val = streamTruncated
  let ec := if ec.cat = ErrCategory.ssl ∧ sslShortReadErr then { ec with val := 0 } else ec
  if ec.isErr then (ec, handleOpen)
  else (closeEc, false)

/-- Embedding of the loop of `ssl::stream_socket<Socket>::send`
(`stream/impl/ssl_stream_socket.ipp`):

    std::size_t transfered_bytes = 0;
    while (transfered_bytes != boost::asio::buffer_size(buffers)) {
        transfered_bytes += write_some(buffers, ec, deadline);
        if (ec) { break; }
    }
    return transfered_bytes;

`writeSome call` yields the byte count and error code of the
`call`-th underlying `write_some`.  Since the code passes the full,
un-advanced `buffers` on every call, the `call`-th successful
`write_some` of `n` bytes puts buffer positions `0 .. n-1` on the wire;
the third result component records the sequence of buffer positions
transmitted.  `fuel` bounds the iteration count; `none` means the loop
has not terminated within `fuel` iterations.  `receive` is the
symmetric loop over `read_some` with the same un-advanced buffer. -/
def sslSendLoop (bufSize : Nat) (writeSome : Nat → Nat × Err) :
    Nat → Nat → Nat → List Nat → Option (Nat × Err × List Nat)
  | 0, _, _, _ => none
  | fuel + 1, call, transfered, wire =>
    if transfered = bufSize then
      some (transfered, Err.ok, wire)
    else
      let r := writeSome call
      let wire1 := wire ++ List.range r.1
      let transfered1 := transfered + r.1
      if r.2.isErr then some (transfered1, r.2, wire1)
      else sslSendLoop bufSize writeSome fuel (call + 1) transfered1 wire1

/-- `ssl::stream_socket::send` on a buffer of `bufSize` bytes, run with
`fuel` loop iterations allowed. -/
def sslSend (bufSize : Nat) (writeSome : Nat → Nat × Err) (fuel : Nat) :
    Option (Nat × Err × List Nat) :=
  sslSendLoop bufSize writeSome fuel 0 0 []

/-- A pool entry `(insertion timestamp, session)`; sessions are
identified by a numeric id (`std::unique_ptr` identity). -/
abbrev PoolEntry : Type := Int × Nat

/-- Embedding of `base_connection_pool::get_session`
(`connector/impl/connection_pool.ipp`):

    if (!pool_lk.try_lock_until(deadline)) { ec = timed_out; return nullptr; }
    if (sesson_pool_.empty()
        && !pool_cv_.wait_until(pool_lk, deadline, [] { return !sesson_pool_.empty(); })) {
        ec = not_found; return nullptr;
    }
    session = std::move(sesson_pool_.front().second);
    sesson_pool_.pop_front();
    return session;

`lockOk` is whether the timed mutex was acquired before the deadline;
`poolAfterWait` is the pool content when the condition-variable wait
returns (the wait happens only if `pool` is empty; its predicate result
at exit is `poolAfterWait ≠ []`).  Result: (session, error code, pool
afterwards). -/
def getSession (lockOk : Bool) (pool poolAfterWait : List PoolEntry) :
    Option Nat × Err × List PoolEntry :=
  if lockOk = false then
    (none, Err.timedOut, pool)
  else
    let p := if pool.isEmpty then poolAfterWait else pool
    match p with
    | [] => (none, Err.notFound, [])
    | e :: rest => (some e.2, Err.ok, rest)

/-- A pooled session object for `return_session`: an identity and
whether its underlying handle (`session->next_layer()`) is open. -/
structure Session : Type where
  sid : Nat
  isOpen : Bool
  deriving DecidableEq, Repr

/-- Embedding of `base_connection_pool::return_session`
(`connector/impl/connection_pool.ipp`):

    if (!session || !session->next_layer().is_open()) { return; }
    if (!pool_lk.try_lock_for(std::chrono::milliseconds(1))) { return; }
    sesson_pool_.emplace_back(clock_type::now(), std::move(session));
    pool_lk.unlock();
    pool_cv_.notify_all();

`lockOk` is whether the mutex was acquired within 1 ms; `now` is the
current timestamp.  Result: (pool afterwards, whether `notify_all` was
invoked). -/
def returnSession (sess : Option Session) (lockOk : Bool) (now : Int)
    (pool : List (Int × Session)) : List (Int × Session) × Bool :=
  match sess with
  | none => (pool, false)
  | some s =>
    if s.isOpen = false then (pool, false)
    else if lockOk = false then (pool, false)
    else (pool ++ [(now, s)], true)

/-- Embedding of the eviction scan of
`base_connection_pool::watch_pool_routine`
(`connector/impl/connection_pool.ipp`):

    std::size_t pool_current_size = 0;
    for (auto pool_it = sesson_pool_.begin(); pool_it != sesson_pool_.end();) {
        const auto idle_for = clock_type::now() - pool_it->first;
        if (idle_for >= idle_timeout_) { pool_it = sesson_pool_.erase(pool_it); }
        else { ++pool_it; ++pool_current_size; }
    }

`clock_type::now()` is read once per inspected entry; `nows j` is the
clock value at the `j`-th inspection and `i` the index of the first one.
Result: (remaining entries, `pool_current_size`). -/
def scanPool (idleTimeout : Int) (nows : Nat → Int) :
    List PoolEntry → Nat → List PoolEntry × Nat
  | [], _ => ([], 0)
  | e :: rest, i =>
    let tail := scanPool idleTimeout nows rest (i + 1)
    if idleTimeout ≤ nows i - e.1 then tail
    else (e :: tail.1, tail.2 + 1)

/-- `vacant_places` computation of `watch_pool_routine`:

    std::size_t vacant_places =
        (pool_max_size_ > pool_current_size) ? pool_max_size_ - pool_current_size : 0; -/
def vacantPlaces (maxSize cnt : Nat) : Nat :=
  if maxSize > cnt then maxSize - cnt else 0

/-- `kMaxBackoffMs` of `conservative_strategy` (10 seconds maximum delay). -/
def kMaxBackoffMs : Nat := 10000

/-- `kDefaultDelayMs` of `conservative_strategy` (50 ms default initial delay). -/
def kDefaultDelayMs : Nat := 50

/-- `kDefaultDelayMul` of `conservative_strategy` (default delay multiplier 3). -/
def kDefaultDelayMul : Nat := 3

/-- Mutable state of `stream_client::connector::conservative_strategy`:
configured initial delay and multiplier, current back-off delay
(`current_delay_ms_`, milliseconds) and `wait_until_` (a clock instant,
in milliseconds since an arbitrary origin). -/
structure ConservativeStrategy : Type where
  initialDelayMs : Nat
  delayMultiplier : Nat
  currentDelayMs : Nat
  waitUntil : Int
  deriving DecidableEq, Repr

/-- `const size_t parallel = (vacant_places + 2) / 3 - 1;` of
`conservative_strategy::refill`, computed in `w`-bit unsigned (`size_t`)
arithmetic: both the addition and the subtraction wrap modulo `2^w`. -/
def sizeParallel (w vacant : Nat) : Nat :=
  (((vacant + 2) % 2 ^ w) / 3 + (2 ^ w - 1)) % 2 ^ w

/-- The back-off delay update on the failure path of
`conservative_strategy::refill`:

    if (!current_delay_ms_) { current_delay_ms_ = initial_delay_ms_; }
    else { current_delay_ms_ *= delay_multiplier_; }
    const auto rand_val = double(r_generator_()) / r_generator_.max();
    current_delay_ms_ *= rand_val;
    current_delay_ms_ = std::min(kMaxBackoffMs, current_delay_ms_);

`q` is the drawn random value; the multiplication by a floating value
truncates back to the unsigned integer `current_delay_ms_`. -/
def backoffStep (init mult cur : Nat) (q : ℚ) : Nat :=
  let d1 := if cur = 0 then init else cur * mult
  let d2 := (⌊(d1 : ℚ) * q⌋).toNat
  min kMaxBackoffMs d2

/-- Embedding of `conservative_strategy::refill`
(`connector/impl/pool_strategy.ipp`).  `w` is the bit width of `size_t`;
`now` is the clock reading of the entry guard, `now2` the one used for
`wait_until_`; `isAdded` says whether any of the session-creation
attempts succeeded (`is_added`); `q` is the random value drawn on the
failure path.  Result: (new strategy state, returned progress flag,
number of extra worker threads spawned besides the in-thread attempt). -/
def conservativeRefill (s : ConservativeStrategy) (w : Nat) (now : Int) (vacant : Nat)
    (isAdded : Bool) (q : ℚ) (now2 : Int) : ConservativeStrategy × Bool × Nat :=
  if now < s.waitUntil then (s, false, 0)
  else
    let parallel := sizeParallel w vacant
    let spawned := if s.currentDelayMs = 0 ∧ 0 < parallel then parallel else 0
    if isAdded then ({ s with currentDelayMs := 0 }, true, spawned)
    else
      let d := backoffStep s.initialDelayMs s.delayMultiplier s.currentDelayMs q
      ({ s with currentDelayMs := d, waitUntil := now2 + (d : Int) }, false, spawned)

/-- `k` consecutive failing `refill` calls of a conservative strategy,
starting from state `s`: each call happens at the instant `wait_until_`
(so the entry guard `now < wait_until_` does not fire), finds one vacant
place, adds no session, and draws `qs j` as its random value on the
`j`-th failure. -/
def refillFailures (s : ConservativeStrategy) (qs : Nat → ℚ) : Nat → ConservativeStrategy
  | 0 => s
  | k + 1 =>
    let p := refillFailures s qs k
    (conservativeRefill p 64 p.waitUntil 1 false (qs k) p.waitUntil).1

/-- Outcome of one iteration of the `http::base_socket::recv_response`
loop: either the loop proceeds to the next iteration, or it breaks with
an error code. -/
inductive StepRes : Type
  | next
  | halt (e : Err)
  deriving DecidableEq, Repr

/-- Embedding of one iteration of the loop of
`http::base_socket::recv_response(parser, buffer, ec, deadline)`:

    try { out_buff.emplace(buffer.prepare(read_size)); }
    catch (const std::length_error&) { ec = buffer_overflow; break; }
    n_bytes = stream_.read_some(*out_buff, ec, deadline);
    if (ec == eof) {
        if (response_parser.got_some()) {
            response_parser.put_eof(ec);
            if (!ec) { continue; }
        } else { ec = end_of_stream; }
    }
    if (ec) { break; }
    buffer.commit(n_bytes);
    n_bytes = response_parser.put(buffer.data(), ec);
    buffer.consume(n_bytes);
    if (ec && ec != need_more) { break; }

`gotSome` is the parser's `got_some()`, `overflow` whether
`buffer.prepare` threw `std::length_error`, `readEc` the `read_some`
outcome, `putEofEc` the outcome of `put_eof` and `putEc` that of `put`. -/
def recvIter (gotSome overflow : Bool) (readEc putEofEc putEc : Err) : StepRes :=
  if overflow then StepRes.halt Err.bufferOverflow
  else if readEc = Err.eof then
    if gotSome then
      if putEofEc.isErr = false then StepRes.next else StepRes.halt putEofEc
    else StepRes.halt Err.endOfStream
  else if readEc.isErr then StepRes.halt readEc
  else if putEc.isErr ∧ putEc ≠ Err.needMore then StepRes.halt putEc
  else StepRes.next

end StreamClient

namespace StreamClient

/-- C1 (as stated): close() attempts graceful shutdown first and, after the
shutdown attempt, closes the handle — so a completed close() on an open
socket leaves the handle closed.  The code does the opposite on the common
path: when `shutdown` succeeds (`ec = ok ≠ not_connected`), the early
return fires and `next_layer().close` is never called, leaving the handle
open while `close()` reports success. -/
theorem streamSocketClose_success_leaves_handle_open :
    streamSocketClose Err.ok Err.ok ⟨true⟩ = (Err.ok, ⟨true⟩) := by
  rfl

/-- C10: a message is emitted iff a logger is set and the gate level is ≤
the message level under the ordering mute = −1 < trace = 0 < debug < info <
warning < error; a gate of `mute` emits every message; and with a logger
set, emission is never suppressed for all levels (the `error` level always
passes), so output vanishes entirely only when no logger is installed. -/
theorem streamLogCall_gate_spec :
    (∀ (set_ : Bool) (gate msg : LogLevel),
      streamLogCall set_ gate msg = true ↔ set_ = true ∧ gate.toInt ≤ msg.toInt)
    ∧ (∀ msg : LogLevel, streamLogCall true LogLevel.mute msg = true)
    ∧ (∀ (set_ : Bool) (gate : LogLevel),
      (∀ msg : LogLevel, streamLogCall set_ gate msg = false) ↔ set_ = false) := by
  refine ⟨?_, ?_, ?_⟩
  · intro set_ gate msg
    cases set_ <;> simp [streamLogCall]
  · intro msg
    cases msg <;> decide
  · intro set_ gate
    constructor
    · intro h
      cases set_ with
      | false => rfl
      | true => exact absurd (h LogLevel.error) (by cases gate <;> decide)
    · intro h
      subst h
      intro msg
      rfl

/-- C8: `ssl::stream_socket::close` performs the TLS shutdown; a
stream-truncated ("short read") result in the ssl category is silently
normalized to success, in which case the lowest-layer handle is closed and
the call returns the handle-close outcome; any other shutdown error is
returned unchanged and the handle is left untouched. -/
theorem sslClose_spec :
    (∀ (closeEc : ErrorCode) (handleOpen : Bool),
      sslClose ⟨ErrCategory.ssl, streamTruncated⟩ closeEc handleOpen = (closeEc, false))
    ∧ (∀ (shutdownEc closeEc : ErrorCode) (handleOpen : Bool),
      shutdownEc.isErr = true →
      ¬(shutdownEc.cat = ErrCategory.ssl ∧ shutdownEc.val = streamTruncated) →
      sslClose shutdownEc closeEc handleOpen = (shutdownEc, handleOpen)) := by
  constructor
  · intro closeEc handleOpen
    rfl
  · intro sEc cEc hOpen hErr hNot
    obtain ⟨c, v⟩ := sEc
    simp only [ErrorCode.isErr, ne_eq, decide_not, Bool.not_eq_eq_eq_not,
      Bool.not_true, decide_eq_false_iff_not] at hErr
    simp only [not_and] at hNot
    by_cases hc : c = ErrCategory.ssl
    · subst hc
      have hv : v ≠ streamTruncated := hNot rfl
      simp [sslClose, ErrorCode.isErr, hv, hErr]
    · simp [sslClose, ErrorCode.isErr, hc, hErr]

/-- Witness for `sslClose_spec`: a non-short-read shutdown error (system
category, value 5) is returned unchanged and the handle stays open. -/
theorem sslClose_spec_witness :
    sslClose ⟨ErrCategory.system, 5⟩ ⟨ErrCategory.system, 0⟩ true
      = (⟨ErrCategory.system, 5⟩, true) :=
  sslClose_spec.2 ⟨ErrCategory.system, 5⟩ ⟨ErrCategory.system, 0⟩ true (by decide)
    (by decide)

/-- C2: the TLS-layer `send` loop passes the full, un-advanced buffer to
every `write_some` call.  On a 2-byte buffer where each `write_some`
transfers one byte, the loop terminates reporting 2 bytes transferred
with no error, yet the wire carries buffer position 0 twice and position
1 never — not every byte exactly once in order (`List.range 2`). -/
theorem sslSend_duplicates_bytes :
    sslSend 2 (fun _ => (1, Err.ok)) 3 = some (2, Err.ok, [0, 0])
    ∧ [0, 0] ≠ List.range 2 := by
  constructor
  · rfl
  · decide

/-- C4: `get_session` yields the timeout error and no session when the
mutex is not acquired before the deadline; yields the pool-empty error
(`not_found`) and no session when the pool is still empty once the
condition-variable wait returns; and otherwise pops and returns exactly
the front (oldest, first-inserted) entry of the effective pool. -/
theorem getSession_spec :
    ∀ (lockOk : Bool) (pool poolAfterWait : List PoolEntry),
      (lockOk = false → getSession lockOk pool poolAfterWait = (none, Err.timedOut, pool))
      ∧ (lockOk = true → (if pool.isEmpty then poolAfterWait else pool) = [] →
          getSession lockOk pool poolAfterWait = (none, Err.notFound, []))
      ∧ (∀ (e : PoolEntry) (rest : List PoolEntry), lockOk = true →
          (if pool.isEmpty then poolAfterWait else pool) = e :: rest →
          getSession lockOk pool poolAfterWait = (some e.2, Err.ok, rest)) := by
  intro lockOk pool pw
  refine ⟨?_, ?_, ?_⟩
  · intro h
    subst h
    rfl
  · intro h hemp
    subst h
    simp only [getSession, Bool.true_eq_false, if_false, hemp]
  · intro e rest h hcons
    subst h
    simp only [getSession, Bool.true_eq_false, if_false, hcons]

/-- Witness for `getSession_spec`: on a one-entry pool with the lock
acquired, the front session is returned and removed. -/
theorem getSession_spec_witness :
    getSession true [(0, 7)] [] = (some 7, Err.ok, []) :=
  (getSession_spec true [(0, 7)] []).2.2 (0, 7) [] rfl rfl

/-- The eviction scan, functionally: the kept entries are exactly the
original ones whose age at their inspection instant is below the idle
timeout, in their original relative order, and the running count is the
number of kept entries. -/
theorem scanPool_eq (T : Int) (nows : Nat → Int) :
    ∀ (pool : List PoolEntry) (i : Nat),
      scanPool T nows pool i
        = (((pool.zip (List.range' i pool.length)).filter
              (fun p => decide (nows p.2 - p.1.1 < T))).map Prod.fst,
           (((pool.zip (List.range' i pool.length)).filter
              (fun p => decide (nows p.2 - p.1.1 < T))).map Prod.fst).length) := by
  intro pool
  induction pool with
  | nil => intro i; rfl
  | cons e rest ih =>
    intro i
    simp only [scanPool, List.length_cons, List.range'_succ, List.zip_cons_cons,
      List.filter_cons, ih (i + 1)]
    by_cases h : T ≤ nows i - e.1
    · rw [if_pos h]
      have hd : decide (nows i - e.1 < T) = false := by
        simp [not_lt.mpr h]
      simp [hd]
    · rw [if_neg h]
      have hd : decide (nows i - e.1 < T) = true := by
        simp [lt_of_not_ge h]
      simp [hd]

/-- C5: after one pass of the watcher's scan, every entry whose age at
its inspection instant is ≥ the idle timeout has been removed, every
younger entry is retained in its original relative order, the reported
count equals the number of remaining entries, and the vacancy count is
max(0, max_size − remaining). -/
theorem watchPoolScan_spec :
    ∀ (T : Int) (nows : Nat → Int) (pool : List PoolEntry) (i maxSize : Nat),
      (scanPool T nows pool i).1
        = ((pool.zip (List.range' i pool.length)).filter
            (fun p => decide (nows p.2 - p.1.1 < T))).map Prod.fst
      ∧ (scanPool T nows pool i).2 = (scanPool T nows pool i).1.length
      ∧ ((vacantPlaces maxSize (scanPool T nows pool i).2 : Int)
          = max 0 ((maxSize : Int) - ((scanPool T nows pool i).2 : Int))) := by
  intro T nows pool i maxSize
  have h := scanPool_eq T nows pool i
  refine ⟨by rw [h], by rw [h], ?_⟩
  unfold vacantPlaces
  split <;> omega

/-- C7: `return_session` appends the session to the back of the pool,
stamped with the current time, and notifies all waiters, exactly when the
session is non-null, its underlying handle is open and the mutex is
acquired within 1 ms; in every other case the session is dropped and the
pool is unchanged with nobody notified. -/
theorem returnSession_spec :
    ∀ (sess : Option Session) (lockOk : Bool) (now : Int) (pool : List (Int × Session)),
      (∀ s : Session, sess = some s → s.isOpen = true → lockOk = true →
        returnSession sess lockOk now pool = (pool ++ [(now, s)], true))
      ∧ ((sess = none ∨ (∀ s : Session, sess = some s → s.isOpen = false) ∨ lockOk = false) →
        returnSession sess lockOk now pool = (pool, false)) := by
  intro sess lockOk now pool
  constructor
  · intro s hs hopen hlock
    subst hs hlock
    simp [returnSession, hopen]
  · intro h
    match sess, h with
    | none, _ => rfl
    | some s, Or.inl h => exact absurd h (by simp)
    | some s, Or.inr (Or.inl h) =>
      have hs := h s rfl
      simp [returnSession, hs]
    | some s, Or.inr (Or.inr h) =>
      subst h
      by_cases ho : s.isOpen = false <;> simp [returnSession, ho]

/-- Witness for `returnSession_spec`: an open session returned under an
uncontended mutex is appended at the back with the current timestamp. -/
theorem returnSession_spec_witness :
    returnSession (some ⟨3, true⟩) true 11 [] = ([(11, ⟨3, true⟩)], true) :=
  (returnSession_spec (some ⟨3, true⟩) true 11 []).1 ⟨3, true⟩ rfl rfl rfl

/-- At `vacant_places = 0` the `size_t` expression `(vacant + 2) / 3 - 1`
underflows and wraps to the largest representable value. -/
theorem sizeParallel_zero (w : Nat) : sizeParallel w 0 = 2 ^ w - 1 := by
  unfold sizeParallel
  have hpos : 0 < 2 ^ w := by positivity
  have h2 : (0 + 2) % 2 ^ w / 3 = 0 :=
    Nat.div_eq_of_lt (lt_of_le_of_lt (Nat.mod_le _ _) (by norm_num))
  rw [h2, Nat.zero_add, Nat.mod_eq_of_lt (by omega)]

/-- One application of the conservative back-off update keeps the delay
below the next power bound and the 10 s cap. -/
theorem backoffStep_bound (init mult cur k : Nat) (q : ℚ)
    (hm : 1 ≤ mult) (hq1 : q ≤ 1) (hcur : cur ≤ init * mult ^ k) :
    backoffStep init mult cur q ≤ min (init * mult ^ (k + 1)) kMaxBackoffMs := by
  have key : ∀ d : Nat, d ≤ init * mult ^ (k + 1) →
      min kMaxBackoffMs (⌊(d : ℚ) * q⌋).toNat ≤ min (init * mult ^ (k + 1)) kMaxBackoffMs := by
    intro d hd
    have hfl : (⌊(d : ℚ) * q⌋).toNat ≤ d := by
      rcases le_or_lt q 0 with hq0 | hq0
      · have hle : (d : ℚ) * q ≤ 0 := mul_nonpos_of_nonneg_of_nonpos (by positivity) hq0
        have h0 : ⌊(d : ℚ) * q⌋ ≤ 0 := Int.floor_nonpos hle
        omega
      · have hle : (d : ℚ) * q ≤ (d : ℚ) := mul_le_of_le_one_right (by positivity) hq1
        have h1 : ⌊(d : ℚ) * q⌋ ≤ ⌊((d : Nat) : ℚ)⌋ := Int.floor_le_floor hle
        rw [Int.floor_natCast] at h1
        exact Int.toNat_le.mpr h1
    exact le_min (le_trans (min_le_right _ _) (le_trans hfl hd)) (min_le_left _ _)
  show min kMaxBackoffMs (⌊((if cur = 0 then init else cur * mult : Nat) : ℚ) * q⌋).toNat ≤ _
  by_cases hc : cur = 0
  · rw [if_pos hc]
    refine key init ?_
    have h1 : 1 ≤ mult ^ (k + 1) := Nat.one_le_pow _ _ hm
    calc init = init * 1 := (Nat.mul_one _).symm
      _ ≤ init * mult ^ (k + 1) := Nat.mul_le_mul_left _ h1
  · rw [if_neg hc]
    refine key (cur * mult) ?_
    calc cur * mult ≤ init * mult ^ k * mult := Nat.mul_le_mul_right _ hcur
      _ = init * mult ^ (k + 1) := by ring

/-- Consecutive failing refills never change the configured initial delay
and multiplier of the strategy. -/
theorem refillFailures_params (s : ConservativeStrategy) (qs : Nat → ℚ) (k : Nat) :
    (refillFailures s qs k).initialDelayMs = s.initialDelayMs
    ∧ (refillFailures s qs k).delayMultiplier = s.delayMultiplier := by
  induction k with
  | zero => exact ⟨rfl, rfl⟩
  | succ k ih =>
    simp only [refillFailures, conservativeRefill, lt_self_iff_false, if_false,
      Bool.false_eq_true]
    exact ih

/-- After `k` consecutive failing refills from a fresh conservative
strategy, the current delay is at most `min (init · mult^k) 10000` ms. -/
theorem refillFailures_bound (init mult : Nat) (t0 : Int) (qs : Nat → ℚ)
    (hm : 1 ≤ mult) (hqs : ∀ j, 0 ≤ qs j ∧ qs j < 1) (k : Nat) :
    (refillFailures ⟨init, mult, 0, t0⟩ qs k).currentDelayMs
      ≤ min (init * mult ^ k) kMaxBackoffMs := by
  induction k with
  | zero => exact Nat.zero_le _
  | succ k ih =>
    have hp := refillFailures_params ⟨init, mult, 0, t0⟩ qs k
    have hstep : (refillFailures ⟨init, mult, 0, t0⟩ qs (k + 1)).currentDelayMs
        = backoffStep init mult
            ((refillFailures ⟨init, mult, 0, t0⟩ qs k).currentDelayMs) (qs k) := by
      simp only [refillFailures, conservativeRefill, lt_self_iff_false, if_false,
        Bool.false_eq_true]
      rw [hp.1, hp.2]
    rw [hstep]
    exact backoffStep_bound _ _ _ k (qs k) hm (le_of_lt (hqs k).2)
      (le_trans ih (min_le_left _ _))

/-- C3 counterexample: with the default configuration (initial delay
50 ms, multiplier 3) and the drawn random value 1/2, the very first
failing refill sets the delay to ⌊50 · 1/2⌋ = 25 ms — the random jitter
multiplies the initial delay on the first failure too, so the claim that
the first failure sets the delay to the configured initial 50 ms fails. -/
theorem conservativeRefill_first_failure_jittered :
    (conservativeRefill ⟨50, 3, 0, 0⟩ 64 0 1 false (1 / 2) 0).1.currentDelayMs = 25
    ∧ (25 : Nat) ≠ 50 := by
  constructor
  · show min kMaxBackoffMs (⌊((50 : Nat) : ℚ) * (1 / 2)⌋).toNat = 25
    have h : ((50 : Nat) : ℚ) * (1 / 2) = ((25 : Nat) : ℚ) := by norm_num
    rw [h, Int.floor_natCast, Int.toNat_natCast]
    unfold kMaxBackoffMs
    omega
  · decide

/-- C3 (amended): a failing refill past `wait_until_` sets the delay to
⌊initial · q⌋ ms on the first failure and to ⌊current · multiplier · q⌋ ms
on subsequent failures (q the drawn random value), clamps it to 10 s,
sets `wait_until_ = now + delay` and returns false; a successful refill
resets the delay to zero and returns true; and after `k` consecutive
failures from a fresh strategy the delay is ≤ min(initial · multiplier^k,
10 s) whenever multiplier ≥ 1 and every drawn value lies in [0, 1). -/
theorem conservativeRefill_backoff_spec :
    (∀ (s : ConservativeStrategy) (w : Nat) (now : Int) (vacant : Nat) (q : ℚ) (now2 : Int),
      ¬ now < s.waitUntil → s.currentDelayMs = 0 →
      (conservativeRefill s w now vacant false q now2).1.currentDelayMs
          = min kMaxBackoffMs (⌊(s.initialDelayMs : ℚ) * q⌋).toNat
        ∧ (conservativeRefill s w now vacant false q now2).1.waitUntil
          = now2 + ((conservativeRefill s w now vacant false q now2).1.currentDelayMs : Int)
        ∧ (conservativeRefill s w now vacant false q now2).2.1 = false)
    ∧ (∀ (s : ConservativeStrategy) (w : Nat) (now : Int) (vacant : Nat) (q : ℚ) (now2 : Int),
      ¬ now < s.waitUntil → s.currentDelayMs ≠ 0 →
      (conservativeRefill s w now vacant false q now2).1.currentDelayMs
          = min kMaxBackoffMs (⌊((s.currentDelayMs * s.delayMultiplier : Nat) : ℚ) * q⌋).toNat
        ∧ (conservativeRefill s w now vacant false q now2).1.waitUntil
          = now2 + ((conservativeRefill s w now vacant false q now2).1.currentDelayMs : Int)
        ∧ (conservativeRefill s w now vacant false q now2).2.1 = false)
    ∧ (∀ (s : ConservativeStrategy) (w : Nat) (now : Int) (vacant : Nat) (q : ℚ) (now2 : Int),
      ¬ now < s.waitUntil →
      (conservativeRefill s w now vacant true q now2).1.currentDelayMs = 0
        ∧ (conservativeRefill s w now vacant true q now2).2.1 = true)
    ∧ (∀ (init mult : Nat) (t0 : Int) (qs : Nat → ℚ), 1 ≤ mult →
      (∀ j, 0 ≤ qs j ∧ qs j < 1) →
      ∀ k, (refillFailures ⟨init, mult, 0, t0⟩ qs k).currentDelayMs
        ≤ min (init * mult ^ k) kMaxBackoffMs) := by
  refine ⟨?_, ?_, ?_, ?_⟩
  · intro s w now vacant q now2 hg hd
    refine ⟨?_, ?_, ?_⟩ <;> simp [conservativeRefill, backoffStep, hg, hd]
  · intro s w now vacant q now2 hg hd
    refine ⟨?_, ?_, ?_⟩ <;> simp [conservativeRefill, backoffStep, hg, hd]
  · intro s w now vacant q now2 hg
    refine ⟨?_, ?_⟩ <;> simp [conservativeRefill, hg]
  · exact refillFailures_bound

/-- Witness for `conservativeRefill_backoff_spec`: a successful refill at
the boundary instant resets a 7 ms back-off to zero and reports progress;
after two failing refills with multiplier 3, initial 50 ms and random
values 1/2, the delay is ≤ min(50 · 3², 10000). -/
theorem conservativeRefill_backoff_spec_witness :
    ((conservativeRefill ⟨50, 3, 7, 0⟩ 64 0 1 true (1 / 2) 0).1.currentDelayMs = 0
      ∧ (conservativeRefill ⟨50, 3, 7, 0⟩ 64 0 1 true (1 / 2) 0).2.1 = true)
    ∧ (refillFailures ⟨50, 3, 0, 0⟩ (fun _ => 1 / 2) 2).currentDelayMs
        ≤ min (50 * 3 ^ 2) kMaxBackoffMs :=
  ⟨conservativeRefill_backoff_spec.2.2.1 ⟨50, 3, 7, 0⟩ 64 0 1 (1 / 2) 0 (by decide),
   conservativeRefill_backoff_spec.2.2.2 50 3 0 (fun _ => 1 / 2) (by decide)
     (fun _ => by norm_num) 2⟩

/-- C9 counterexample: the claim's formula `⌈vacant/3⌉ − 1` for every
`vacant_places ≥ 1` fails at the top `size_t` value: for `w = 64` and
`vacant = 2^64 − 1` the addition `vacant + 2` itself wraps, so the code
computes `2^64 − 1` while `⌈(2^64−1)/3⌉ − 1 = 6148914691236517204`. -/
theorem sizeParallel_wraps_at_top :
    sizeParallel 64 (2 ^ 64 - 1) = 2 ^ 64 - 1
    ∧ sizeParallel 64 (2 ^ 64 - 1) ≠ (2 ^ 64 - 1 + 2) / 3 - 1 := by
  constructor
  · rfl
  · decide

/-- C9 (amended): `parallel = (vacant_places + 2) / 3 − 1` in `w`-bit
unsigned arithmetic wraps to `2^w − 1` at `vacant_places = 0`; when the
current back-off is zero the guard `parallel > 0` therefore holds and
`refill` spawns `2^w − 1` worker threads; and for `1 ≤ vacant ≤ 2^w − 3`
(no wrap in the addition) the value is the plain `(vacant + 2) / 3 − 1 =
⌈vacant/3⌉ − 1`. -/
theorem conservativeRefill_parallel_spec :
    (∀ w : Nat, sizeParallel w 0 = 2 ^ w - 1)
    ∧ (∀ w vacant : Nat, 1 ≤ vacant → vacant ≤ 2 ^ w - 3 →
        sizeParallel w vacant = (vacant + 2) / 3 - 1)
    ∧ (∀ (w : Nat) (s : ConservativeStrategy) (now : Int) (isAdded : Bool) (q : ℚ)
        (now2 : Int),
        1 ≤ w → s.currentDelayMs = 0 → ¬ now < s.waitUntil →
        (conservativeRefill s w now 0 isAdded q now2).2.2 = 2 ^ w - 1) := by
  refine ⟨sizeParallel_zero, ?_, ?_⟩
  · intro w v hv1 hv2
    have hpos : 0 < 2 ^ w := by positivity
    unfold sizeParallel
    have hlt : v + 2 < 2 ^ w := by omega
    rw [Nat.mod_eq_of_lt hlt]
    have ha1 : 1 ≤ (v + 2) / 3 := (Nat.one_le_div_iff (by norm_num)).mpr (by omega)
    have ha2 : (v + 2) / 3 ≤ v + 2 := Nat.div_le_self _ _
    have key : (v + 2) / 3 + (2 ^ w - 1) = ((v + 2) / 3 - 1) + 2 ^ w := by omega
    rw [key, Nat.add_mod_right, Nat.mod_eq_of_lt (by omega)]
  · intro w s now isAdded q now2 hw hd hg
    have h2 : 2 ≤ 2 ^ w := by
      calc 2 = 2 ^ 1 := by norm_num
        _ ≤ 2 ^ w := Nat.pow_le_pow_right (by norm_num) hw
    have hcond : s.currentDelayMs = 0 ∧ 0 < sizeParallel w 0 := by
      refine ⟨hd, ?_⟩
      rw [sizeParallel_zero]
      omega
    have hspawn : (if s.currentDelayMs = 0 ∧ 0 < sizeParallel w 0
        then sizeParallel w 0 else 0) = 2 ^ w - 1 := by
      rw [if_pos hcond, sizeParallel_zero]
    cases isAdded with
    | false =>
      simp only [conservativeRefill, if_neg hg, Bool.false_eq_true, if_false]
      exact hspawn
    | true =>
      simp only [conservativeRefill, if_neg hg]
      exact hspawn

/-- Witness for `conservativeRefill_parallel_spec`: with `w = 4`,
`sizeParallel 4 5 = ⌈5/3⌉ − 1 = 1`, and a zero-back-off refill at
`vacant = 0` spawns `2^4 − 1 = 15` workers. -/
theorem conservativeRefill_parallel_spec_witness :
    sizeParallel 4 5 = 1
    ∧ (conservativeRefill ⟨50, 3, 0, 0⟩ 4 0 0 false (1 / 2) 0).2.2 = 15 := by
  constructor
  · rw [conservativeRefill_parallel_spec.2.1 4 5 (by decide) (by decide)]
  · exact conservativeRefill_parallel_spec.2.2 4 ⟨50, 3, 0, 0⟩ 0 false (1 / 2) 0
      (by decide) rfl (by decide)

/-- C6 counterexample: when `read_some` reports EOF, the parser has
consumed some bytes and `put_eof` reports an error (an incomplete
message), the loop does not continue — it breaks with that error, so the
claim that the loop always continues after pushing EOF fails. -/
theorem recvIter_eof_push_error_halts :
    recvIter true false Err.eof Err.incompleteMessage Err.ok
        = StepRes.halt Err.incompleteMessage
    ∧ StepRes.halt Err.incompleteMessage ≠ StepRes.next := by
  decide

/-- C6 (amended): in every `recv_response` iteration (without buffer
overflow): on EOF with a parser that has consumed bytes, EOF is pushed
into the parser and the loop continues exactly when the parser accepts it
without error, otherwise the iteration fails with the parser's error; on
EOF with nothing consumed, the iteration fails with `end_of_stream`; and
a `need_more` parser result is never an error — the loop continues. -/
theorem recvIter_spec :
    (∀ putEofEc putEc : Err,
      recvIter true false Err.eof putEofEc putEc
        = if putEofEc = Err.ok then StepRes.next else StepRes.halt putEofEc)
    ∧ (∀ putEofEc putEc : Err,
      recvIter false false Err.eof putEofEc putEc = StepRes.halt Err.endOfStream)
    ∧ (∀ (gotSome : Bool) (putEofEc : Err),
      recvIter gotSome false Err.ok putEofEc Err.needMore = StepRes.next) := by
  refine ⟨?_, ?_, ?_⟩
  · intro a b
    by_cases h : a = Err.ok <;> simp [recvIter, Err.isErr, h]
  · intro a b
    rfl
  · intro g a
    cases g <;> rfl

end StreamClient
